import Mathlib

/-!
Verification of the `timeclock` repository (`src/timeclock/timeclock.py`).

The Python module is shallowly embedded below.  Python strings are Lean
`String`s, `datetime.datetime` values (minute precision only is ever used)
are `DateTime` records, `datetime.timedelta`s are `Int` minute counts, the
contents of one data directory is an association list from file stem
(`"yymmdd"`; every data file is named `<stem>.txt`) to file content, and a
raised exception is an `Except`/`Option` error value.  Wall-clock time
(`datetime.datetime.now()`) is passed in explicitly as a `nowT : DateTime`
parameter.  Where the program iterates a directory (`Path.iterdir`), whose
native order the OS does not fix, the association-list order stands for the
iteration order; the program assumes that order is ascending by file name.
-/

set_option maxRecDepth 20000

namespace Timeclock

/-- The six ASCII characters CPython's `re` module matches with `\s` and
`str.strip` removes.  (The Python functions also treat further Unicode
whitespace as space; no data handled by this program contains any.) -/
def isPySpace (c : Char) : Bool :=
  c == ' ' || c == '\t' || c == '\n' || c == '\x0b' || c == '\x0c' || c == '\r'

/-- The digit character for `n` (`'0'`–`'9'` when `n < 10`). -/
def dchar (n : Nat) : Char := Char.ofNat (48 + n)

/-- Numeric value of a digit character (what `int()` yields on it). -/
def dval (c : Char) : Nat := c.toNat - 48

/-- A `datetime.datetime` at minute precision (seconds/microseconds are
always zero in this program). -/
structure DateTime where
  year : Nat
  month : Nat
  day : Nat
  hour : Nat
  minute : Nat
deriving DecidableEq

/-- Proleptic-Gregorian leap-year test, as in Python's `calendar.isleap`. -/
def isLeap (y : Nat) : Bool := y % 4 == 0 && (y % 100 != 0 || y % 400 == 0)

/-- Length of month `m` of year `y` (Python `calendar.monthrange`). -/
def daysInMonth (y m : Nat) : Nat :=
  if m = 2 then (if isLeap y then 29 else 28)
  else if m = 4 ∨ m = 6 ∨ m = 9 ∨ m = 11 then 30
  else 31

def daysInYear (y : Nat) : Nat := if isLeap y then 366 else 365

/-- Days from 0001-01-01 to the first day of year `y`: CPython's
`_days_before_year` closed form. -/
def daysBeforeYear (y : Nat) : Nat :=
  365 * (y - 1) + (y - 1) / 4 - (y - 1) / 100 + (y - 1) / 400

/-- CPython's `_DAYS_BEFORE_MONTH` table. -/
def daysBeforeMonthTable (m : Nat) : Nat :=
  match m with
  | 1 => 0 | 2 => 31 | 3 => 59 | 4 => 90 | 5 => 120 | 6 => 151
  | 7 => 181 | 8 => 212 | 9 => 243 | 10 => 273 | 11 => 304 | 12 => 334
  | _ => 0

/-- Days from the first day of year `y` to the first day of its month `m`
(CPython's `_days_before_month`). -/
def daysBeforeMonth (y m : Nat) : Nat :=
  daysBeforeMonthTable m + (if 2 < m ∧ isLeap y then 1 else 0)

/-- Minutes from 0001-01-01 00:00 to `t`; `datetime` subtraction of two
minute-precision values is the difference of their `toMin` images. -/
def toMin (t : DateTime) : Nat :=
  ((daysBeforeYear t.year + daysBeforeMonth t.year t.month + (t.day - 1)) * 24 + t.hour) * 60
    + t.minute

/-- Year and day-of-year (0-based) for a 0-based day count from 0001-01-01:
the divmod chain of CPython's `_ord2ymd`, with the end-of-cycle corrections
for the last day of a leap year. -/
def yearFromDays (n : Nat) : Nat × Nat :=
  let n400 := n / 146097
  let r1 := n % 146097
  let n100 := r1 / 36524
  let r2 := r1 % 36524
  let n4 := r2 / 1461
  let r3 := r2 % 1461
  let n1 := r3 / 365
  let r4 := r3 % 365
  if n1 = 4 ∨ n100 = 4 then (400 * n400 + 100 * n100 + 4 * n4 + n1, 365)
  else (400 * n400 + 100 * n100 + 4 * n4 + n1 + 1, r4)

/-- Month and day-of-month (0-based) for day-of-year `d` of year `y`
(the month scan of `_ord2ymd`; at most eleven steps). -/
def mfdGo (y : Nat) : Nat → Nat → Nat → Nat × Nat
  | 0, m, d => (m, d)
  | f + 1, m, d => if d < daysInMonth y m then (m, d) else mfdGo y f (m + 1) (d - daysInMonth y m)

/-- Minute count from 0001-01-01 00:00 back to a `DateTime`. -/
def fromMin (v : Nat) : DateTime :=
  let p := yearFromDays (v / 1440)
  let q := mfdGo p.1 11 1 p.2
  ⟨p.1, q.1, q.2 + 1, v % 1440 / 60, v % 60⟩

/-- `datetime + timedelta` (minutes).  Python raises `OverflowError` when the
result falls outside `datetime.min .. datetime.max` (years 1–9999); that is
the `none` case. -/
def dt_add_timedelta (t : DateTime) (m : Int) : Option DateTime :=
  let v : Int := (toMin t : Int) + m
  if v < 0 then none
  else
    let r := fromMin v.toNat
    if r.year ≤ 9999 then some r else none

/-! ## Time codec (`_dt_to_str`, `_str_to_dt`)

`_dt_to_str` is `strftime("%y%m%d %H:%M")`: each field zero-padded to two
digits, `%y` printing `year % 100`.  `_str_to_dt` is
`datetime.strptime(s, "%y%m%d %H:%M")`, which CPython implements by regex
matching: `%y ↦ \d\d`, `%m ↦ 1[0-2]|0[1-9]|[1-9]`,
`%d ↦ 3[01]|[12]\d|0[1-9]|[1-9]| [1-9]`, `%H ↦ 2[0-3]|[0-1]\d|\d`,
`%M ↦ [0-5]\d|\d`, a whitespace run in the format `↦ \s+`, anchored at the
start, with an error unless the match consumes the whole string.  The
two-character alternatives of each field are modelled by their equivalent
numeric-range test; ordered alternatives with backtracking are modelled by
candidate lists tried in order (`tryCands`).  The greedy `\s+` never needs
to give characters back because every token after it starts with a
non-whitespace character, so it is modelled by maximal munch. -/

def pad2chars (n : Nat) : List Char := [dchar (n / 10), dchar (n % 10)]

def dt_to_str (t : DateTime) : String :=
  String.mk (pad2chars (t.year % 100) ++ pad2chars t.month ++ pad2chars t.day
    ++ ' ' :: (pad2chars t.hour ++ ':' :: pad2chars t.minute))

/-- The `datetime.datetime` constructor's range validation (`MINYEAR = 1`,
`MAXYEAR = 9999`). -/
def mkDatetime (y m d h mi : Nat) : Option DateTime :=
  if 1 ≤ y ∧ y ≤ 9999 ∧ 1 ≤ m ∧ m ≤ 12 ∧ 1 ≤ d ∧ d ≤ daysInMonth y m ∧ h ≤ 23 ∧ mi ≤ 59 then
    some ⟨y, m, d, h, mi⟩
  else none

/-- Try the alternatives of one regex token in order; the first one whose
continuation succeeds wins (regex backtracking). -/
def tryCands (cands : List (Nat × List Char)) (k : Nat → List Char → Option DateTime) :
    Option DateTime :=
  match cands with
  | [] => none
  | (v, r) :: t =>
    match k v r with
    | some x => some x
    | none => tryCands t k

def twoDigitVal (c1 c2 : Char) : Nat := 10 * dval c1 + dval c2

/-- Alternatives of `%m ↦ 1[0-2]|0[1-9]|[1-9]`: a two-digit match is exactly
a two-digit string of value 1–12. -/
def candsM : List Char → List (Nat × List Char)
  | c1 :: c2 :: rest =>
    (if c1.isDigit ∧ c2.isDigit ∧ 1 ≤ twoDigitVal c1 c2 ∧ twoDigitVal c1 c2 ≤ 12 then
      [(twoDigitVal c1 c2, rest)] else [])
    ++ (if c1.isDigit ∧ 1 ≤ dval c1 ∧ dval c1 ≤ 9 then [(dval c1, c2 :: rest)] else [])
  | [c1] => if c1.isDigit ∧ 1 ≤ dval c1 ∧ dval c1 ≤ 9 then [(dval c1, [])] else []
  | [] => []

/-- Alternatives of `%d ↦ 3[01]|[12]\d|0[1-9]|[1-9]| [1-9]`: two digits of
value 1–31, then one digit 1–9, then space-digit. -/
def candsD : List Char → List (Nat × List Char)
  | c1 :: c2 :: rest =>
    (if c1.isDigit ∧ c2.isDigit ∧ 1 ≤ twoDigitVal c1 c2 ∧ twoDigitVal c1 c2 ≤ 31 then
      [(twoDigitVal c1 c2, rest)] else [])
    ++ (if c1.isDigit ∧ 1 ≤ dval c1 ∧ dval c1 ≤ 9 then [(dval c1, c2 :: rest)] else [])
    ++ (if c1 = ' ' ∧ c2.isDigit ∧ 1 ≤ dval c2 ∧ dval c2 ≤ 9 then [(dval c2, rest)] else [])
  | [c1] => if c1.isDigit ∧ 1 ≤ dval c1 ∧ dval c1 ≤ 9 then [(dval c1, [])] else []
  | [] => []

/-- Alternatives of `%H ↦ 2[0-3]|[0-1]\d|\d`: two digits of value 0–23, then
any single digit. -/
def candsH : List Char → List (Nat × List Char)
  | c1 :: c2 :: rest =>
    (if c1.isDigit ∧ c2.isDigit ∧ twoDigitVal c1 c2 ≤ 23 then [(twoDigitVal c1 c2, rest)]
      else [])
    ++ (if c1.isDigit then [(dval c1, c2 :: rest)] else [])
  | [c1] => if c1.isDigit then [(dval c1, [])] else []
  | [] => []

/-- Alternatives of `%M ↦ [0-5]\d|\d`: two digits of value 0–59, then any
single digit. -/
def candsMin : List Char → List (Nat × List Char)
  | c1 :: c2 :: rest =>
    (if c1.isDigit ∧ c2.isDigit ∧ twoDigitVal c1 c2 ≤ 59 then [(twoDigitVal c1 c2, rest)]
      else [])
    ++ (if c1.isDigit then [(dval c1, c2 :: rest)] else [])
  | [c1] => if c1.isDigit then [(dval c1, [])] else []
  | [] => []

/-- `\s+`: at least one whitespace character, munched maximally. -/
def matchWs : List Char → Option (List Char)
  | c :: t => if isPySpace c then some (t.dropWhile isPySpace) else none
  | [] => none

/-- End of the match: the whole string must be consumed (else
`unconverted data remains`), then the `datetime` constructor runs.
CPython constructs the `datetime` once, from the first full regex match;
here the construction sits inside the backtracking continuation, which is
extensionally the same function: whenever the constructor rejects a full
match (only possible through `day ≤ daysInMonth`, with a two-digit day),
every remaining alternative already dies inside the regex, because each
shorter split of the digit run leaves a digit in front of a token (`\s+`,
`:`, or end of input) that cannot accept one. -/
def pFinish (y m d h mi : Nat) (cs7 : List Char) : Option DateTime :=
  if cs7 = [] then mkDatetime y m d h mi else none

def pMin (y m d h : Nat) (cs6 : List Char) : Option DateTime :=
  tryCands (candsMin cs6) fun mi cs7 => pFinish y m d h mi cs7

/-- The literal `:` of the format. -/
def pColon (y m d h : Nat) (cs5 : List Char) : Option DateTime :=
  match cs5 with
  | ':' :: cs6 => pMin y m d h cs6
  | _ => none

def pH (y m d : Nat) (cs4 : List Char) : Option DateTime :=
  tryCands (candsH cs4) fun h cs5 => pColon y m d h cs5

/-- The `\s+` the format's space becomes. -/
def pWs (y m d : Nat) (cs3 : List Char) : Option DateTime :=
  match matchWs cs3 with
  | none => none
  | some cs4 => pH y m d cs4

def pD (y : Nat) (m : Nat) (cs2 : List Char) : Option DateTime :=
  tryCands (candsD cs2) fun d cs3 => pWs y m d cs3

def pM (y : Nat) (cs1 : List Char) : Option DateTime :=
  tryCands (candsM cs1) fun m cs2 => pD y m cs2

/-- The whole anchored match of `"%y%m%d %H:%M"` plus the `datetime`
constructor call, including CPython's two-digit-year pivot
(`y ≤ 68 ↦ 2000 + y`, else `1900 + y`). -/
def parseChars (cs : List Char) : Option DateTime :=
  match cs with
  | c1 :: c2 :: rest =>
    if c1.isDigit ∧ c2.isDigit then
      pM (if twoDigitVal c1 c2 ≤ 68 then 2000 + twoDigitVal c1 c2
        else 1900 + twoDigitVal c1 c2) rest
    else none
  | _ => none

/-- `_str_to_dt`. -/
def str_to_dt (s : String) : Option DateTime := parseChars s.data

/-- `_now_str()` with the wall clock passed explicitly. -/
def now_str (nowT : DateTime) : String := dt_to_str nowT

/-- `_today_str()`: the first six characters of `_now_str()`. -/
def today_str (nowT : DateTime) : String := String.mk ((dt_to_str nowT).data.take 6)

/-- `_prev_midnight_str()`. -/
def prev_midnight_str (nowT : DateTime) : String := today_str nowT ++ " 00:00"

/-- `_next_midnight_str(yymmdd)`. -/
def next_midnight_str (yymmdd : String) : String := yymmdd ++ " 23:59"

/-! ## Entry interpretation -/

/-- `_is_clocked_in`. -/
def is_clocked_in (entries : List String) : Bool := entries.length % 2 == 1

/-- `_get_time_brackets`: `zip(islice(a, 0, None, 2), islice(b, 1, None, 2))`
pairs element 0 with 1, 2 with 3, and so on; a final unpaired element forms
no bracket. -/
def get_time_brackets {α : Type} : List α → List (α × α)
  | a :: b :: t => (a, b) :: get_time_brackets t
  | _ => []

/-- `map(_str_to_dt, entries)` as consumed by `_get_time_brackets`: every
element is parsed (the `zip` drains both `tee` branches), and the first
failure raises `ValueError`. -/
def parse_all : List String → Option (List DateTime)
  | [] => some []
  | s :: t =>
    match str_to_dt s, parse_all t with
    | some d, some ds => some (d :: ds)
    | _, _ => none

/-- `sum(deltas, timedelta())` over the brackets, in minutes. -/
def sumDeltas (bs : List (DateTime × DateTime)) : Int :=
  (bs.map fun p => (toMin p.2 : Int) - (toMin p.1 : Int)).foldl (· + ·) 0

/-- `_get_cumulative_time`, with the wall clock explicit: append
`_now_str()`, parse, bracket, and sum `out - in`. -/
def get_cumulative_time (nowT : DateTime) (entries : List String) : Option Int :=
  (parse_all (entries ++ [dt_to_str nowT])).map fun ts => sumDeltas (get_time_brackets ts)

/-- Zero-pad to two digits (for `str(timedelta)` rendering). -/
def pad2str (n : Nat) : String := if n < 10 then "0" ++ toString n else toString n

/-- Python `str(timedelta)` for whole-minute values: `H:MM:00`, prefixed by
`D day(s), ` when the floor-division day count is nonzero. -/
def timedeltaStr (m : Int) : String :=
  let days := Int.fdiv m 1440
  let rem := (m - 1440 * days).toNat
  let base := toString (rem / 60) ++ ":" ++ pad2str (rem % 60) ++ ":00"
  if days = 0 then base
  else toString days ++ " day" ++ (if days = 1 ∨ days = -1 then "" else "s") ++ ", " ++ base

/-- `_generate_report`: state line, initial clock-in, cumulative time, and
virtual clock-out, or a fixed message when there are no entries.  `none` is
a raised exception (a timestamp failing to parse, or the virtual clock-out
overflowing the `datetime` year range). -/
def generate_report (nowT : DateTime) (entries : List String) : Option String :=
  match entries with
  | [] => some "No entries found.\n\n"
  | e0 :: rest =>
    let lastE := (e0 :: rest).getLast (List.cons_ne_nil e0 rest)
    let stateLine :=
      if is_clocked_in (e0 :: rest) then "state: clocked IN as of " ++ lastE ++ "."
      else "state: clocked OUT as of " ++ lastE ++ "."
    match get_cumulative_time nowT (e0 :: rest) with
    | none => none
    | some cum =>
      match str_to_dt e0 with
      | none => none
      | some t0 =>
        match dt_add_timedelta t0 cum with
        | none => none
        | some tv =>
          some (stateLine ++ "\ninitial clock in: " ++ e0 ++ "\ncumulative time: "
            ++ timedeltaStr cum ++ "\nvirtual clock out: " ++ dt_to_str tv ++ "\n\n")

/-! ## Day-file store (`_read_data_file`, `_overwrite_data_file`)

A file on disk is `Option String` (`none` = the path does not exist). -/

/-- `_REPORT_DELIMITER`. -/
def REPORT_DELIM : String := "----------"

/-- `str.strip()` on the character list of a string. -/
def stripChars (l : List Char) : List Char :=
  ((l.dropWhile isPySpace).reverse.dropWhile isPySpace).reverse

/-- `str.strip()`. -/
def pyStrip (s : String) : String := String.mk (stripChars s.data)

/-- Split at newline characters.  `file.readlines()` followed by `str.strip`
on each line yields the same stripped lines, except that this version may
add empty strings (for a trailing newline), which the read path's
`filter(None, ...)` discards either way. -/
def splitOnNl : List Char → List (List Char)
  | [] => [[]]
  | c :: t =>
    if c = '\n' then [] :: splitOnNl t
    else
      match splitOnNl t with
      | h :: r => (c :: h) :: r
      | [] => [[c]]

/-- `_read_data_file`: empty when the file does not exist, else the
stripped, non-blank lines up to (excluding) the first report delimiter. -/
def read_data_file (content : Option String) : List String :=
  match content with
  | none => []
  | some c =>
    (((splitOnNl c.data).map fun l => String.mk (stripChars l)).filter fun s => s ≠ "")
      |>.takeWhile fun s => s ≠ REPORT_DELIM

/-- `"\n".join(...)` (Python `str.join`). -/
def pyJoin (sep : String) : List String → String
  | [] => ""
  | [x] => x
  | x :: y :: t => x ++ sep ++ pyJoin sep (y :: t)

/-- `_overwrite_data_file`, as the new file state: delete (`some none`) when
there are no entries, else entries + delimiter + regenerated report
(`some (some content)`); `none` is the exception raised while the report is
generated, before the file is opened. -/
def write_data_file (nowT : DateTime) (entries : List String) : Option (Option String) :=
  if entries = [] then some none
  else (generate_report nowT entries).map fun rep =>
    some (pyJoin "\n" (entries ++ [REPORT_DELIM, rep]))

/-! ## Clock-state resolver -/

/-- One data directory: file stem (`yymmdd`; the file on disk is
`<stem>.txt`) paired with file content, listed in `iterdir` order. -/
abbrev Dir := List (String × String)

/-- The loop of `_find_latest_entries` over the already-reversed listing. -/
def flGo : List (String × String) → Option String × List String
  | [] => (none, [])
  | (stem, content) :: rest =>
    let entries := read_data_file (some content)
    if entries = [] then flGo rest else (some stem, entries)

/-- `_find_latest_entries`: scan `reversed(list(data_dir.iterdir()))`,
skipping files whose parsed entry list is empty. -/
def find_latest_entries (dir : Dir) : Option String × List String := flGo dir.reverse

/-- `_find_latest_clock_in`. -/
def find_latest_clock_in (dir : Dir) : Option String × List String :=
  let r := find_latest_entries dir
  if is_clocked_in r.2 then r else (none, [])

/-! ## Clock transitions -/

/-- The exceptions the module can raise: `ClockInStateError`, the
`RuntimeError` guard in `clock_out`, and `ValueError` from `strptime`. -/
inductive PyErr where
  | clockState (msg : String)
  | runtime (msg : String)
  | valueError
deriving DecidableEq

def MSG_ALREADY_IN : String := "You are already clocked in. Clock out before clocking in again."

def MSG_ALREADY_OUT : String := "You are already clocked out. Clock in before clocking out."

def MSG_UNEXPECTED : String := "Unexpected error: clock in found but no date returned."

/-- `_clip_last_time_delta_if_short`: with at least two entries, parse the
last two and drop both when their delta is under `_MIN_DELTA` (5 minutes);
`none` is the `ValueError` when one of the two fails to parse. -/
def clip_last_time_delta_if_short (entries : List String) : Option (List String) :=
  if entries.length < 2 then some entries
  else
    match entries.drop (entries.length - 2) with
    | [a, b] =>
      match str_to_dt a, str_to_dt b with
      | some ta, some tb =>
        if (toMin tb : Int) - (toMin ta : Int) < 5 then some (entries.take (entries.length - 2))
        else some entries
      | _, _ => none
    | _ => none

/-- Write or replace a file in a directory; a fresh name is inserted in
name order (the order the program assumes `iterdir` reports). -/
def dirSet (stem content : String) : Dir → Dir
  | [] => [(stem, content)]
  | (s, c) :: t =>
    if stem = s then (stem, content) :: t
    else if stem < s then (stem, content) :: (s, c) :: t
    else (s, c) :: dirSet stem content t

/-- `Path.unlink` of `<stem>.txt` (no effect when absent, matching the
`filename.exists()` guard). -/
def dirDel (stem : String) (d : Dir) : Dir := d.filter fun p => p.1 ≠ stem

/-- Apply a `write_data_file` result to the directory. -/
def dirApply (stem : String) (f : Option String) (d : Dir) : Dir :=
  match f with
  | none => dirDel stem d
  | some c => dirSet stem c d

/-- Content of `<stem>.txt`, `none` when the path does not exist. -/
def dirGet (stem : String) (d : Dir) : Option String := List.lookup stem d

/-- Shared tail of `clock_out`: append `_now_str()`, clip, overwrite today's
file, and render the report.  Errors carry the directory state at the point
the exception is raised. -/
def clock_out_finish (nowT : DateTime) (name : String) (dir : Dir) (entries : List String) :
    Except (PyErr × Dir) (Dir × String) :=
  match clip_last_time_delta_if_short (entries ++ [dt_to_str nowT]) with
  | none => .error (.valueError, dir)
  | some e4 =>
    match write_data_file nowT e4 with
    | none => .error (.valueError, dir)
    | some f =>
      let dir2 := dirApply (today_str nowT) f dir
      match generate_report nowT e4 with
      | none => .error (.valueError, dir2)
      | some rep => .ok (dir2, "## " ++ name ++ "\n" ++ rep)

/-- `clock_out(data_dir)` on one directory (`name` is `data_dir.stem`, used
only in the printed report). -/
def clock_out (nowT : DateTime) (name : String) (dir : Dir) :
    Except (PyErr × Dir) (Dir × String) :=
  match find_latest_clock_in dir with
  | (yk, entries) =>
    if entries = [] then .error (.clockState MSG_ALREADY_OUT, dir)
    else if yk = some (today_str nowT) then clock_out_finish nowT name dir entries
    else
      match yk with
      | none => .error (.runtime MSG_UNEXPECTED, dir)
      | some d1 =>
        match clip_last_time_delta_if_short (entries ++ [next_midnight_str d1]) with
        | none => .error (.valueError, dir)
        | some e2 =>
          match write_data_file nowT e2 with
          | none => .error (.valueError, dir)
          | some f1 =>
            clock_out_finish nowT name (dirApply d1 f1 dir) [prev_midnight_str nowT]

/-- All data directories, in `_iter_data_dirs` order, each with its stem. -/
abbrev World := List (String × Dir)

/-- Prepend a processed directory to the outcome of the remaining ones. -/
def coaCons (n : String) (d : Dir) (r : Except (PyErr × World) World) :
    Except (PyErr × World) World :=
  match r with
  | .ok w => .ok ((n, d) :: w)
  | .error (e, w) => .error (e, (n, d) :: w)

/-- `_clock_out_all`: clock out every directory, suppressing
`ClockInStateError` only; any other exception propagates with the state
reached so far. -/
def clock_out_all (nowT : DateTime) : World → Except (PyErr × World) World
  | [] => .ok []
  | (n, d) :: rest =>
    match clock_out nowT n d with
    | .ok (d', _) => coaCons n d' (clock_out_all nowT rest)
    | .error (.clockState _, d') => coaCons n d' (clock_out_all nowT rest)
    | .error (e, d') => .error (e, (n, d') :: rest)

/-- Update one named directory of the world (the world is assumed to list
every data directory; `_DATA_DIR` is created at import time). -/
def worldApply (name stem : String) (f : Option String) (w : World) : World :=
  w.map fun p => if p.1 = name then (p.1, dirApply stem f p.2) else p

/-- `clock_in(data_dir)`: fail from the clocked-in state, else clock out all
clocks, re-read today's file, append `_now_str()`, clip, and overwrite. -/
def clock_in (nowT : DateTime) (w : World) (name : String) :
    Except (PyErr × World) (World × String) :=
  let dir := (List.lookup name w).getD []
  if (find_latest_clock_in dir).2 = [] then
    match clock_out_all nowT w with
    | .error (e, w') => .error (e, w')
    | .ok w1 =>
      let dir1 := (List.lookup name w1).getD []
      let entries := read_data_file (dirGet (today_str nowT) dir1)
      match clip_last_time_delta_if_short (entries ++ [dt_to_str nowT]) with
      | none => .error (.valueError, w1)
      | some e3 =>
        match write_data_file nowT e3 with
        | none => .error (.valueError, w1)
        | some f =>
          let w2 := worldApply name (today_str nowT) f w1
          match generate_report nowT e3 with
          | none => .error (.valueError, w2)
          | some rep => .ok (w2, "## " ++ name ++ "\n" ++ rep)
  else .error (.clockState MSG_ALREADY_IN, w)

/-! ## Predicates used by the statements -/

/-- Ranges accepted by the `datetime.datetime` constructor (what every
`datetime` value the program builds satisfies). -/
def validT (t : DateTime) : Prop :=
  1 ≤ t.year ∧ t.year ≤ 9999 ∧ 1 ≤ t.month ∧ t.month ≤ 12 ∧ 1 ≤ t.day ∧
    t.day ≤ daysInMonth t.year t.month ∧ t.hour ≤ 23 ∧ t.minute ≤ 59

instance (t : DateTime) : Decidable (validT t) := by unfold validT; infer_instance

/-- The exact fixed-width `yymmdd HH:MM` character shape. -/
def isTsShape (s : String) : Bool :=
  match s.data with
  | [y1, y2, m1, m2, d1, d2, sp, h1, h2, co, n1, n2] =>
    y1.isDigit && y2.isDigit && m1.isDigit && m2.isDigit && d1.isDigit && d2.isDigit
      && (sp == ' ') && h1.isDigit && h2.isDigit && (co == ':') && n1.isDigit && n2.isDigit
  | _ => false

/-- A well-formed stored entry: fixed-width `yymmdd HH:MM` (hence no
surrounding whitespace) and accepted by `_str_to_dt`. -/
def isCanonicalTs (s : String) : Bool := isTsShape s && (str_to_dt s).isSome

/-- A well-formed day-file stem: six digits (`yymmdd`). -/
def isDateKey (s : String) : Bool :=
  match s.data with
  | [a, b, c, d, e, f] => a.isDigit && b.isDigit && c.isDigit && d.isDigit && e.isDigit && f.isDigit
  | _ => false

/-- A string that survives the read pipeline unchanged: it contains no
newline (so `"\n".join` keeps it one line), stripping does not change it,
and it is neither blank nor the report delimiter. -/
def LineOk (s : String) : Prop :=
  '\n' ∉ s.data ∧ pyStrip s = s ∧ s ≠ "" ∧ s ≠ REPORT_DELIM

/-! ## Helper lemmas -/

theorem dchar_isDigit {n : Nat} (h : n < 10) : (dchar n).isDigit = true := by
  interval_cases n <;> decide

theorem dval_dchar {n : Nat} (h : n < 10) : dval (dchar n) = n := by
  interval_cases n <;> decide

theorem digit_ne {c z : Char} (h : c.isDigit = true) (hz : z.isDigit = false) : c ≠ z := by
  intro hEq
  subst hEq
  rw [h] at hz
  cases hz

theorem digit_beq_false {c z : Char} (h : c.isDigit = true) (hz : z.isDigit = false) :
    (c == z) = false := by
  cases hEq : c == z
  · rfl
  · exact absurd (beq_iff_eq.mp hEq) (digit_ne h hz)

theorem digit_not_pyspace {c : Char} (h : c.isDigit = true) : isPySpace c = false := by
  unfold isPySpace
  rw [digit_beq_false h (by decide), digit_beq_false h (by decide), digit_beq_false h (by decide),
    digit_beq_false h (by decide), digit_beq_false h (by decide), digit_beq_false h (by decide)]
  rfl

theorem clip_eq (l : List String) (a b : String) (ta tb : DateTime)
    (hd : l.drop (l.length - 2) = [a, b])
    (hpa : str_to_dt a = some ta) (hpb : str_to_dt b = some tb) :
    clip_last_time_delta_if_short l =
      if (toMin tb : Int) - (toMin ta : Int) < 5 then some (l.take (l.length - 2))
      else some l := by
  have hlen : 2 ≤ l.length := by
    have h2 := congrArg List.length hd
    simp only [List.length_drop, List.length_cons, List.length_nil] at h2
    omega
  unfold clip_last_time_delta_if_short
  rw [if_neg (by omega), hd]
  simp only [hpa, hpb]

theorem drop_last_two (l : List String) (a b : String) :
    (l ++ [a, b]).drop ((l ++ [a, b]).length - 2) = [a, b] := by
  have h : (l ++ [a, b]).length - 2 = l.length := by
    simp only [List.length_append, List.length_cons, List.length_nil]
    omega
  rw [h, List.drop_left]

/-- C1: with at least two entries whose last two parse, the collapse drops
exactly the last two entries when their delta is under five minutes and
leaves the list unchanged otherwise; with fewer than two entries the list
is unchanged; in particular appending a pair whose delta is short restores
the list that preceded the pair. -/
theorem claim1_short_interval_collapse :
    (∀ l : List String, l.length < 2 → clip_last_time_delta_if_short l = some l) ∧
    (∀ (l : List String) (a b : String) (ta tb : DateTime),
      l.drop (l.length - 2) = [a, b] → str_to_dt a = some ta → str_to_dt b = some tb →
      clip_last_time_delta_if_short l =
        if (toMin tb : Int) - (toMin ta : Int) < 5 then some (l.take (l.length - 2))
        else some l) ∧
    (∀ (l : List String) (a b : String) (ta tb : DateTime),
      str_to_dt a = some ta → str_to_dt b = some tb →
      (toMin tb : Int) - (toMin ta : Int) < 5 →
      clip_last_time_delta_if_short (l ++ [a, b]) = some l) := by
  refine ⟨?_, ?_, ?_⟩
  · intro l h
    unfold clip_last_time_delta_if_short
    rw [if_pos h]
  · intro l a b ta tb hd hpa hpb
    exact clip_eq l a b ta tb hd hpa hpb
  · intro l a b ta tb hpa hpb hlt
    rw [clip_eq (l ++ [a, b]) a b ta tb (drop_last_two l a b) hpa hpb, if_pos hlt]
    have h : (l ++ [a, b]).length - 2 = l.length := by
      simp only [List.length_append, List.length_cons, List.length_nil]
      omega
    rw [h, List.take_left]

theorem claim1_witness :
    clip_last_time_delta_if_short ["240919 13:45", "240919 13:47"] =
      if (toMin (⟨2024, 9, 19, 13, 47⟩ : DateTime) : Int)
          - (toMin (⟨2024, 9, 19, 13, 45⟩ : DateTime) : Int) < 5
      then some ((["240919 13:45", "240919 13:47"] : List String).take
        ((["240919 13:45", "240919 13:47"] : List String).length - 2))
      else some ["240919 13:45", "240919 13:47"] :=
  claim1_short_interval_collapse.2.1 ["240919 13:45", "240919 13:47"]
    "240919 13:45" "240919 13:47" ⟨2024, 9, 19, 13, 45⟩ ⟨2024, 9, 19, 13, 47⟩
    (by decide) (by decide) (by decide)

/-- C10: when the last entry parses to a strictly earlier time than the one
before it, the delta is negative, hence under the threshold, and the
collapse removes the pair. -/
theorem claim10_backwards_pair_collapse :
    ∀ (l : List String) (a b : String) (ta tb : DateTime),
      l.drop (l.length - 2) = [a, b] → str_to_dt a = some ta → str_to_dt b = some tb →
      toMin tb < toMin ta →
      clip_last_time_delta_if_short l = some (l.take (l.length - 2)) := by
  intro l a b ta tb hd hpa hpb hlt
  rw [clip_eq l a b ta tb hd hpa hpb, if_pos]
  have h : (toMin tb : Int) < (toMin ta : Int) := by exact_mod_cast hlt
  omega

theorem claim10_witness :
    clip_last_time_delta_if_short ["240919 13:45", "240919 13:40"] =
      some ((["240919 13:45", "240919 13:40"] : List String).take
        ((["240919 13:45", "240919 13:40"] : List String).length - 2)) :=
  claim10_backwards_pair_collapse ["240919 13:45", "240919 13:40"]
    "240919 13:45" "240919 13:40" ⟨2024, 9, 19, 13, 45⟩ ⟨2024, 9, 19, 13, 40⟩
    (by decide) (by decide) (by decide) (by decide)

theorem pyJoin_cons (sep x : String) (rest : List String) (h : rest ≠ []) :
    pyJoin sep (x :: rest) = x ++ sep ++ pyJoin sep rest := by
  cases rest with
  | nil => exact absurd rfl h
  | cons y t => rfl

theorem splitOnNl_append (a b : List Char) (ha : '\n' ∉ a) :
    splitOnNl (a ++ '\n' :: b) = a :: splitOnNl b := by
  induction a with
  | nil => simp [splitOnNl]
  | cons c a' ih =>
    have hc : c ≠ '\n' := fun hEq => ha (hEq ▸ List.mem_cons_self c a')
    have ha' : '\n' ∉ a' := fun hm => ha (List.mem_cons_of_mem c hm)
    show splitOnNl (c :: (a' ++ '\n' :: b)) = (c :: a') :: splitOnNl b
    simp only [splitOnNl, if_neg hc]
    rw [ih ha']

theorem read_of_join (xs : List String) (rest : String)
    (h : ∀ x ∈ xs, '\n' ∉ x.data ∧ pyStrip x ≠ REPORT_DELIM) :
    read_data_file (some (pyJoin "\n" (xs ++ [REPORT_DELIM, rest]))) =
      (xs.map pyStrip).filter (fun s => s ≠ "") := by
  induction xs with
  | nil =>
    show read_data_file (some (REPORT_DELIM ++ "\n" ++ rest)) = []
    simp only [read_data_file]
    rw [String.data_append, String.data_append,
      show ("\n" : String).data = ['\n'] from rfl, List.append_assoc,
      List.singleton_append, splitOnNl_append _ _ (by decide)]
    simp only [List.map_cons]
    rw [show String.mk (stripChars REPORT_DELIM.data) = REPORT_DELIM from by decide,
      List.filter_cons_of_pos (by simp [REPORT_DELIM]),
      List.takeWhile_cons_of_neg (by simp)]
  | cons x xs ih =>
    have hx := h x (List.mem_cons_self x xs)
    have ih' := ih fun y hy => h y (List.mem_cons_of_mem x hy)
    rw [List.cons_append, pyJoin_cons _ _ _ (by simp)]
    simp only [read_data_file] at ih' ⊢
    rw [String.data_append, String.data_append,
      show ("\n" : String).data = ['\n'] from rfl, List.append_assoc,
      List.singleton_append, splitOnNl_append _ _ hx.1]
    simp only [List.map_cons]
    rw [show String.mk (stripChars x.data) = pyStrip x from rfl]
    by_cases hb : pyStrip x = ""
    · rw [List.filter_cons_of_neg (by simp [hb]), List.filter_cons_of_neg (by simp [hb])]
      exact ih'
    · rw [List.filter_cons_of_pos (by simp [hb]), List.filter_cons_of_pos (by simp [hb]),
        List.takeWhile_cons_of_pos (by simp [hx.2]), ih']

theorem stripChars_no_space (a b : Char) (mid : List Char)
    (ha : isPySpace a = false) (hb : isPySpace b = false) :
    stripChars (a :: (mid ++ [b])) = a :: (mid ++ [b]) := by
  unfold stripChars
  rw [List.dropWhile_cons_of_neg (by simp [ha])]
  rw [show (a :: (mid ++ [b])).reverse = b :: (mid.reverse ++ [a]) from by simp]
  rw [List.dropWhile_cons_of_neg (by simp [hb])]
  rw [show (b :: (mid.reverse ++ [a])).reverse = a :: (mid ++ [b]) from by simp]

theorem shape_lineOk {s : String} (hs : isTsShape s = true) : LineOk s := by
  unfold isTsShape at hs
  split at hs
  case h_2 => exact Bool.noConfusion hs
  case h_1 y1 y2 m1 m2 d1 d2 sp h1 h2 co n1 n2 heq =>
    simp only [Bool.and_eq_true, beq_iff_eq] at hs
    obtain ⟨⟨⟨⟨⟨⟨⟨⟨⟨⟨⟨hy1, hy2⟩, hm1⟩, hm2⟩, hd1⟩, hd2⟩, hsp⟩, hh1⟩, hh2⟩, hco⟩, hn1⟩, hn2⟩ := hs
    refine ⟨?_, ?_, ?_, ?_⟩
    · rw [heq]
      intro hmem
      simp only [List.mem_cons, List.not_mem_nil, or_false] at hmem
      rcases hmem with h | h | h | h | h | h | h | h | h | h | h | h <;>
        first
          | exact digit_ne (by assumption) (by decide) h.symm
          | exact absurd (h.trans (by assumption)) (by decide)
    · have hstrip : stripChars s.data = s.data := by
        rw [heq]
        exact stripChars_no_space y1 n2 [y2, m1, m2, d1, d2, sp, h1, h2, co, n1]
          (digit_not_pyspace hy1) (digit_not_pyspace hn2)
      show String.mk (stripChars s.data) = s
      rw [hstrip]
    · intro hEq
      rw [hEq] at heq
      exact List.noConfusion heq
    · intro hEq
      rw [hEq] at heq
      have hlen := congrArg List.length heq
      simp [REPORT_DELIM] at hlen

theorem canonical_lineOk {s : String} (h : isCanonicalTs s = true) : LineOk s :=
  shape_lineOk ((Bool.and_eq_true _ _).mp h).1

theorem canonical_parses {s : String} (h : isCanonicalTs s = true) :
    ∃ t, str_to_dt s = some t :=
  Option.isSome_iff_exists.mp ((Bool.and_eq_true _ _).mp h).2

theorem read_of_join_all (xs : List String) (rest : String) (h : ∀ x ∈ xs, LineOk x) :
    read_data_file (some (pyJoin "\n" (xs ++ [REPORT_DELIM, rest]))) = xs := by
  rw [read_of_join xs rest fun x hx =>
    ⟨(h x hx).1, fun hEq => (h x hx).2.2.2 (((h x hx).2.1).symm.trans hEq)⟩]
  rw [List.map_congr_left fun x hx => (h x hx).2.1, List.map_id']
  exact List.filter_eq_self.mpr fun a ha => by simp [(h a ha).2.2.1]

/-- C6: reading a missing file yields the empty entry list; reading file
content made of lines followed by the delimiter line and arbitrary trailing
content yields exactly the stripped non-blank lines before the delimiter —
everything after the delimiter is never parsed; the repository's own
blank-line example reads as expected. -/
theorem claim6_read_semantics :
    read_data_file none = [] ∧
    (∀ (pre : List String) (post : String),
      (∀ x ∈ pre, '\n' ∉ x.data ∧ pyStrip x ≠ REPORT_DELIM) →
      read_data_file (some (pyJoin "\n" (pre ++ [REPORT_DELIM, post]))) =
        (pre.map pyStrip).filter (fun s => s ≠ "")) ∧
    read_data_file (some "240919 13:45\n   \n240919 14:45\n----------\nblah blah blah") =
      ["240919 13:45", "240919 14:45"] :=
  ⟨rfl, read_of_join, by decide⟩

theorem claim6_witness :
    read_data_file
        (some (pyJoin "\n" (["240919 13:45", "   ", "240919 14:45"]
          ++ [REPORT_DELIM, "blah blah blah"]))) =
      ((["240919 13:45", "   ", "240919 14:45"].map pyStrip).filter (fun s => s ≠ "")) :=
  claim6_read_semantics.2.1 ["240919 13:45", "   ", "240919 14:45"] "blah blah blah"
    (by decide)

/-- C5: for a non-empty list of well-formed (fixed-width, parseable)
entries whose report generates, writing produces exactly the joined
entries + delimiter + report, and reading that content back returns the
entry list unchanged, the report suffix being discarded. -/
theorem claim5_store_round_trip :
    ∀ (nowT : DateTime) (entries : List String) (rep : String),
      entries ≠ [] → (∀ e ∈ entries, isCanonicalTs e = true) →
      generate_report nowT entries = some rep →
      write_data_file nowT entries =
          some (some (pyJoin "\n" (entries ++ [REPORT_DELIM, rep]))) ∧
        read_data_file (some (pyJoin "\n" (entries ++ [REPORT_DELIM, rep]))) = entries := by
  intro nowT entries rep hne hcan hrep
  constructor
  · unfold write_data_file
    rw [if_neg hne, hrep]
    rfl
  · exact read_of_join_all entries rep fun e he => canonical_lineOk (hcan e he)

theorem claim5_witness :
    write_data_file ⟨2024, 9, 18, 14, 0⟩ ["240918 13:45", "240918 14:45"] =
        some (some (pyJoin "\n" (["240918 13:45", "240918 14:45"]
          ++ [REPORT_DELIM,
            "state: clocked OUT as of 240918 14:45.\ninitial clock in: 240918 13:45\ncumulative time: 1:00:00\nvirtual clock out: 240918 14:45\n\n"]))) ∧
      read_data_file (some (pyJoin "\n" (["240918 13:45", "240918 14:45"]
          ++ [REPORT_DELIM,
            "state: clocked OUT as of 240918 14:45.\ninitial clock in: 240918 13:45\ncumulative time: 1:00:00\nvirtual clock out: 240918 14:45\n\n"]))) =
        ["240918 13:45", "240918 14:45"] :=
  claim5_store_round_trip ⟨2024, 9, 18, 14, 0⟩ ["240918 13:45", "240918 14:45"] _
    (by decide) (by decide) (by decide)

theorem flGo_eq (l : List (String × String)) :
    flGo l =
      match l.find? (fun f => read_data_file (some f.2) ≠ []) with
      | none => (none, [])
      | some f => (some f.1, read_data_file (some f.2)) := by
  induction l with
  | nil => rfl
  | cons p rest ih =>
    obtain ⟨stem, content⟩ := p
    simp only [flGo]
    by_cases hc : read_data_file (some content) = []
    · rw [if_pos hc, List.find?_cons_of_neg _ (by simp [hc])]
      exact ih
    · rw [if_neg hc, List.find?_cons_of_pos _ (by simp [hc])]

/-- C3: the resolver scans the reversed directory listing (hence descending
by file name when the listing is ascending), skips files whose parsed entry
list is empty, returns the first non-empty one, and returns `(none, [])`
when every file parses empty; the spec's two-file example evaluates as
claimed. -/
theorem claim3_resolver :
    (∀ dir : Dir, find_latest_entries dir =
      match dir.reverse.find? (fun f => read_data_file (some f.2) ≠ []) with
      | none => (none, [])
      | some f => (some f.1, read_data_file (some f.2))) ∧
    (∀ dir : Dir, dir.Pairwise (fun a b => a.1 < b.1) →
      dir.reverse.Pairwise (fun a b => b.1 < a.1)) ∧
    (∀ dir : Dir, (∀ f ∈ dir, read_data_file (some f.2) = []) →
      find_latest_entries dir = (none, [])) ∧
    find_latest_entries [("240918", "240918 13:45\n240918 14:45"), ("240919", "")] =
      (some "240918", ["240918 13:45", "240918 14:45"]) := by
  have hmain : ∀ dir : Dir, find_latest_entries dir =
      match dir.reverse.find? (fun f => read_data_file (some f.2) ≠ []) with
      | none => (none, [])
      | some f => (some f.1, read_data_file (some f.2)) :=
    fun dir => flGo_eq dir.reverse
  refine ⟨hmain, ?_, ?_, by decide⟩
  · intro dir h
    exact List.pairwise_reverse.mpr h
  · intro dir h
    rw [hmain dir, List.find?_eq_none.mpr fun x hx => by simp [h x (List.mem_reverse.mp hx)]]

theorem claim3_witness :
    find_latest_entries [("240919", "")] = (none, []) :=
  claim3_resolver.2.2.1 [("240919", "")] (by decide)

theorem parse_all_append (xs : List String) (y : String) :
    parse_all (xs ++ [y]) =
      match parse_all xs, str_to_dt y with
      | some ts, some t => some (ts ++ [t])
      | _, _ => none := by
  induction xs with
  | nil => cases h : str_to_dt y <;> simp [parse_all, h]
  | cons s xs ih =>
    show parse_all (s :: (xs ++ [y])) = _
    simp only [parse_all, ih]
    cases hs : str_to_dt s <;> cases hxs : parse_all xs <;> cases hy : str_to_dt y <;> simp

theorem parse_all_length : ∀ {xs : List String} {ts : List DateTime},
    parse_all xs = some ts → ts.length = xs.length
  | [], ts, h => by
    simp only [parse_all, Option.some_inj] at h
    rw [← h]
    rfl
  | s :: xs, ts, h => by
    revert h
    simp only [parse_all]
    cases hs : str_to_dt s with
    | none => exact fun h => Option.noConfusion h
    | some d =>
      cases hxs : parse_all xs with
      | none => exact fun h => Option.noConfusion h
      | some ds =>
        intro h
        rw [← Option.some_inj.mp h, List.length_cons, List.length_cons,
          parse_all_length hxs]

theorem brackets_append_even {α : Type} : ∀ (ts : List α) (x : α), ts.length % 2 = 0 →
    get_time_brackets (ts ++ [x]) = get_time_brackets ts
  | [], _, _ => rfl
  | [a], _, h => by simp at h
  | a :: b :: t, x, h => by
    have ht : t.length % 2 = 0 := by simp only [List.length_cons] at h; omega
    show get_time_brackets (a :: b :: (t ++ [x])) = get_time_brackets (a :: b :: t)
    show (a, b) :: get_time_brackets (t ++ [x]) = (a, b) :: get_time_brackets t
    rw [brackets_append_even t x ht]

theorem brackets_getElem {α : Type} : ∀ (l : List α) (i : Nat),
    (get_time_brackets l)[i]? =
      l[2 * i]?.bind fun a => (l[2 * i + 1]?.map fun b => (a, b))
  | [], i => by simp [get_time_brackets]
  | [a], i => by
    cases i with
    | zero => simp [get_time_brackets]
    | succ j =>
      rw [show 2 * (j + 1) = (2 * j + 1) + 1 from by ring]
      simp [get_time_brackets]
  | a :: b :: t, i => by
    cases i with
    | zero => simp [get_time_brackets]
    | succ j =>
      show ((a, b) :: get_time_brackets t)[j + 1]? = _
      rw [List.getElem?_cons_succ, brackets_getElem t j,
        show 2 * (j + 1) = (2 * j) + 1 + 1 from by ring,
        List.getElem?_cons_succ, List.getElem?_cons_succ,
        List.getElem?_cons_succ, List.getElem?_cons_succ]

/-- C7: cumulative duration appends the wall clock as a synthetic trailing
entry (the stored list itself is unchanged — the model is pure), pairs
element 0 with 1, 2 with 3, and so on, and sums `out - in`; the empty list
yields the zero duration, an even-length list yields a result independent
of the wall clock, and the four hourly entries of the spec yield exactly
two hours (120 minutes). -/
theorem claim7_cumulative_duration :
    (∀ nowT : DateTime, str_to_dt (dt_to_str nowT) = some nowT →
      get_cumulative_time nowT [] = some 0) ∧
    (∀ (l : List DateTime) (i : Nat),
      (get_time_brackets l)[i]? =
        l[2 * i]?.bind fun a => (l[2 * i + 1]?.map fun b => (a, b))) ∧
    (∀ (nowT nowT' : DateTime) (l : List String), l.length % 2 = 0 →
      str_to_dt (dt_to_str nowT) = some nowT → str_to_dt (dt_to_str nowT') = some nowT' →
      get_cumulative_time nowT l = get_cumulative_time nowT' l) ∧
    (∀ nowT : DateTime, str_to_dt (dt_to_str nowT) = some nowT →
      get_cumulative_time nowT ["240919 13:45", "240919 14:45", "240919 15:45", "240919 16:45"]
        = some 120) := by
  have hindep : ∀ (nowT nowT' : DateTime) (l : List String), l.length % 2 = 0 →
      str_to_dt (dt_to_str nowT) = some nowT → str_to_dt (dt_to_str nowT') = some nowT' →
      get_cumulative_time nowT l = get_cumulative_time nowT' l := by
    intro nowT nowT' l hlen h h'
    unfold get_cumulative_time
    rw [parse_all_append, parse_all_append, h, h']
    cases hl : parse_all l with
    | none => rfl
    | some ts =>
      have hts : ts.length % 2 = 0 := by rw [parse_all_length hl]; exact hlen
      show some (sumDeltas (get_time_brackets (ts ++ [nowT])))
        = some (sumDeltas (get_time_brackets (ts ++ [nowT'])))
      rw [brackets_append_even ts nowT hts, brackets_append_even ts nowT' hts]
  refine ⟨?_, fun l i => brackets_getElem l i, hindep, ?_⟩
  · intro nowT h
    unfold get_cumulative_time
    rw [show ([] : List String) ++ [dt_to_str nowT] = [dt_to_str nowT] from rfl]
    simp [parse_all, h, get_time_brackets, sumDeltas]
  · intro nowT h
    rw [hindep nowT ⟨2024, 1, 1, 0, 0⟩ _ (by decide) h (by decide)]
    decide

theorem claim7_witness :
    get_cumulative_time ⟨2024, 1, 1, 0, 0⟩
        ["240919 13:45", "240919 14:45", "240919 15:45", "240919 16:45"] = some 120 :=
  claim7_cumulative_duration.2.2.2 ⟨2024, 1, 1, 0, 0⟩ (by decide)

/-- C4: `clock_in` invoked while the resolver reports a clocked-in state
fails with `ClockInStateError` before touching any file (the returned world
is the input world), and `clock_out` invoked while the resolver reports no
clocked-in state fails likewise with the directory unchanged. -/
theorem claim4_wrong_state_errors :
    (∀ (nowT : DateTime) (w : World) (name : String),
      (find_latest_clock_in ((List.lookup name w).getD [])).2 ≠ [] →
      clock_in nowT w name = .error (.clockState MSG_ALREADY_IN, w)) ∧
    (∀ (nowT : DateTime) (name : String) (dir : Dir),
      (find_latest_clock_in dir).2 = [] →
      clock_out nowT name dir = .error (.clockState MSG_ALREADY_OUT, dir)) := by
  constructor
  · intro nowT w name h
    unfold clock_in
    rw [if_neg h]
  · intro nowT name dir h
    rcases hP : find_latest_clock_in dir with ⟨yk, entries⟩
    have he : entries = [] := by rw [hP] at h; exact h
    simp only [clock_out, hP]
    rw [if_pos he]

theorem claim4_witness :
    clock_in ⟨2024, 9, 19, 10, 0⟩ [("tc", [("240918", "240918 13:45")])] "tc" =
        .error (.clockState MSG_ALREADY_IN, [("tc", [("240918", "240918 13:45")])]) ∧
      clock_out ⟨2024, 9, 19, 10, 0⟩ "tc" [] = .error (.clockState MSG_ALREADY_OUT, []) :=
  ⟨claim4_wrong_state_errors.1 ⟨2024, 9, 19, 10, 0⟩ [("tc", [("240918", "240918 13:45")])] "tc"
      (by decide),
    claim4_wrong_state_errors.2 ⟨2024, 9, 19, 10, 0⟩ "tc" [] (by decide)⟩

theorem tryCands_head (v : Nat) (r : List Char) (t : List (Nat × List Char))
    (k : Nat → List Char → Option DateTime) (x : DateTime)
    (h : k v r = some x) : tryCands ((v, r) :: t) k = some x := by
  unfold tryCands
  rw [h]

theorem tryCands_append_single (v : Nat) (r : List Char) (t : List (Nat × List Char))
    (k : Nat → List Char → Option DateTime) (x : DateTime)
    (h : k v r = some x) : tryCands ([(v, r)] ++ t) k = some x := by
  rw [List.singleton_append]
  exact tryCands_head v r t k x h

theorem daysInMonth_le_31 (y m : Nat) : daysInMonth y m ≤ 31 := by
  unfold daysInMonth
  split
  · split <;> omega
  · split <;> omega

theorem parse_canonical (yy mm dd hh mi : Nat)
    (hy : yy < 100) (hm1 : 1 ≤ mm) (hm2 : mm ≤ 12) (hd1 : 1 ≤ dd)
    (hd2 : dd ≤ daysInMonth (if yy ≤ 68 then 2000 + yy else 1900 + yy) mm)
    (hho : hh ≤ 23) (hmo : mi ≤ 59) :
    parseChars [dchar (yy / 10), dchar (yy % 10), dchar (mm / 10), dchar (mm % 10),
        dchar (dd / 10), dchar (dd % 10), ' ', dchar (hh / 10), dchar (hh % 10), ':',
        dchar (mi / 10), dchar (mi % 10)]
      = some ⟨if yy ≤ 68 then 2000 + yy else 1900 + yy, mm, dd, hh, mi⟩ := by
  have hdd31 : dd ≤ 31 := le_trans hd2 (daysInMonth_le_31 _ mm)
  have dy1 : (dchar (yy / 10)).isDigit = true := dchar_isDigit (by omega)
  have dy2 : (dchar (yy % 10)).isDigit = true := dchar_isDigit (by omega)
  have dm1 : (dchar (mm / 10)).isDigit = true := dchar_isDigit (by omega)
  have dm2 : (dchar (mm % 10)).isDigit = true := dchar_isDigit (by omega)
  have dd1 : (dchar (dd / 10)).isDigit = true := dchar_isDigit (by omega)
  have dd2 : (dchar (dd % 10)).isDigit = true := dchar_isDigit (by omega)
  have dh1 : (dchar (hh / 10)).isDigit = true := dchar_isDigit (by omega)
  have dh2 : (dchar (hh % 10)).isDigit = true := dchar_isDigit (by omega)
  have dn1 : (dchar (mi / 10)).isDigit = true := dchar_isDigit (by omega)
  have dn2 : (dchar (mi % 10)).isDigit = true := dchar_isDigit (by omega)
  have ry : twoDigitVal (dchar (yy / 10)) (dchar (yy % 10)) = yy := by
    unfold twoDigitVal
    rw [dval_dchar (by omega), dval_dchar (by omega)]
    omega
  have rm : twoDigitVal (dchar (mm / 10)) (dchar (mm % 10)) = mm := by
    unfold twoDigitVal
    rw [dval_dchar (by omega), dval_dchar (by omega)]
    omega
  have rd : twoDigitVal (dchar (dd / 10)) (dchar (dd % 10)) = dd := by
    unfold twoDigitVal
    rw [dval_dchar (by omega), dval_dchar (by omega)]
    omega
  have rh : twoDigitVal (dchar (hh / 10)) (dchar (hh % 10)) = hh := by
    unfold twoDigitVal
    rw [dval_dchar (by omega), dval_dchar (by omega)]
    omega
  have rn : twoDigitVal (dchar (mi / 10)) (dchar (mi % 10)) = mi := by
    unfold twoDigitVal
    rw [dval_dchar (by omega), dval_dchar (by omega)]
    omega
  set Y := if yy ≤ 68 then 2000 + yy else 1900 + yy with hY
  have hmk : mkDatetime Y mm dd hh mi = some ⟨Y, mm, dd, hh, mi⟩ := by
    unfold mkDatetime
    rw [if_pos ⟨by rw [hY]; split <;> omega, by rw [hY]; split <;> omega,
      hm1, hm2, hd1, hd2, hho, hmo⟩]
  have h5 : pFinish Y mm dd hh mi [] = some ⟨Y, mm, dd, hh, mi⟩ := by
    unfold pFinish
    rw [if_pos rfl]
    exact hmk
  have h4 : pMin Y mm dd hh [dchar (mi / 10), dchar (mi % 10)] = some ⟨Y, mm, dd, hh, mi⟩ := by
    unfold pMin
    simp only [candsMin]
    rw [if_pos ⟨dn1, dn2, by rw [rn]; omega⟩, rn]
    exact tryCands_append_single _ _ _ _ _ h5
  have h3 : pColon Y mm dd hh (':' :: dchar (mi / 10) :: [dchar (mi % 10)])
      = some ⟨Y, mm, dd, hh, mi⟩ := h4
  have h2 : pH Y mm dd [dchar (hh / 10), dchar (hh % 10), ':',
      dchar (mi / 10), dchar (mi % 10)] = some ⟨Y, mm, dd, hh, mi⟩ := by
    unfold pH
    simp only [candsH]
    rw [if_pos ⟨dh1, dh2, by rw [rh]; omega⟩, rh]
    exact tryCands_append_single _ _ _ _ _ h3
  have hmw : matchWs (' ' :: [dchar (hh / 10), dchar (hh % 10), ':',
      dchar (mi / 10), dchar (mi % 10)])
      = some [dchar (hh / 10), dchar (hh % 10), ':', dchar (mi / 10), dchar (mi % 10)] := by
    simp only [matchWs]
    rw [if_pos (show isPySpace ' ' = true from rfl)]
    rw [List.dropWhile_cons_of_neg (by simp [digit_not_pyspace dh1])]
  have hws : pWs Y mm dd (' ' :: [dchar (hh / 10), dchar (hh % 10), ':',
      dchar (mi / 10), dchar (mi % 10)]) = some ⟨Y, mm, dd, hh, mi⟩ := by
    unfold pWs
    rw [hmw]
    exact h2
  have h1 : pD Y mm [dchar (dd / 10), dchar (dd % 10), ' ', dchar (hh / 10),
      dchar (hh % 10), ':', dchar (mi / 10), dchar (mi % 10)] = some ⟨Y, mm, dd, hh, mi⟩ := by
    unfold pD
    simp only [candsD]
    rw [if_pos ⟨dd1, dd2, by rw [rd]; omega, by rw [rd]; omega⟩, rd, List.append_assoc]
    exact tryCands_append_single _ _ _ _ _ hws
  have h0 : pM Y [dchar (mm / 10), dchar (mm % 10), dchar (dd / 10), dchar (dd % 10), ' ',
      dchar (hh / 10), dchar (hh % 10), ':', dchar (mi / 10), dchar (mi % 10)]
      = some ⟨Y, mm, dd, hh, mi⟩ := by
    unfold pM
    simp only [candsM]
    rw [if_pos ⟨dm1, dm2, by rw [rm]; omega, by rw [rm]; omega⟩, rm]
    exact tryCands_append_single _ _ _ _ _ h1
  show (if (dchar (yy / 10)).isDigit ∧ (dchar (yy % 10)).isDigit then
      pM (if twoDigitVal (dchar (yy / 10)) (dchar (yy % 10)) ≤ 68 then
          2000 + twoDigitVal (dchar (yy / 10)) (dchar (yy % 10))
        else 1900 + twoDigitVal (dchar (yy / 10)) (dchar (yy % 10)))
        [dchar (mm / 10), dchar (mm % 10), dchar (dd / 10), dchar (dd % 10), ' ',
          dchar (hh / 10), dchar (hh % 10), ':', dchar (mi / 10), dchar (mi % 10)]
    else none) = some ⟨Y, mm, dd, hh, mi⟩
  rw [if_pos ⟨dy1, dy2⟩, ry, ← hY]
  exact h0

/-- Shared core of the codec round trip: parsing the canonical rendering of
any constructor-valid `DateTime` in the two-digit-year window returns it
unchanged. -/
theorem round_trip_core (t : DateTime) (hv : validT t) (hy1 : 1969 ≤ t.year)
    (hy2 : t.year ≤ 2068) : str_to_dt (dt_to_str t) = some t := by
  obtain ⟨hvy, hvy9, hvm1, hvm2, hvd1, hvd2, hvh, hvmi⟩ := hv
  have hYeq : (if t.year % 100 ≤ 68 then 2000 + t.year % 100 else 1900 + t.year % 100)
      = t.year := by
    split <;> omega
  have hdata : (dt_to_str t).data
      = [dchar (t.year % 100 / 10), dchar (t.year % 100 % 10), dchar (t.month / 10),
        dchar (t.month % 10), dchar (t.day / 10), dchar (t.day % 10), ' ',
        dchar (t.hour / 10), dchar (t.hour % 10), ':',
        dchar (t.minute / 10), dchar (t.minute % 10)] := rfl
  show parseChars (dt_to_str t).data = some t
  rw [hdata, parse_canonical (t.year % 100) t.month t.day t.hour t.minute (by omega)
    hvm1 hvm2 hvd1 (by rw [hYeq]; exact hvd2) hvh hvmi]
  rw [Option.some_inj, hYeq]

/-- C8 (counterexample): the claim also asserts that parsing fails on any
string not matching the exact fixed-width `yymmdd HH:MM` pattern; but
`strptime` accepts one-digit month and day fields, so the eleven-character
string `"24011 13:45"` parses (to 2024-01-01 13:45) although the canonical
rendering of that timestamp is `"240101 13:45"`. -/
theorem claim8_counterexample :
    str_to_dt "24011 13:45" = some ⟨2024, 1, 1, 13, 45⟩ ∧
      dt_to_str ⟨2024, 1, 1, 13, 45⟩ = "240101 13:45" ∧
      ("24011 13:45" : String) ≠ "240101 13:45" := by
  decide

/-- C8 (amended): rendering is the fixed-width twelve-character
`yymmdd HH:MM` form and `parse (render t) = t` for every constructor-valid
minute-precision `t` in the two-digit-year window 1969–2068; parsing is
not, however, limited to the exact fixed-width pattern (`strptime` also
accepts some shorter variants). -/
theorem claim8_round_trip :
    ∀ t : DateTime, validT t → 1969 ≤ t.year → t.year ≤ 2068 →
      (dt_to_str t).length = 12 ∧ str_to_dt (dt_to_str t) = some t := by
  intro t hv h1 h2
  exact ⟨rfl, round_trip_core t hv h1 h2⟩

theorem claim8_witness :
    (dt_to_str ⟨2024, 9, 19, 13, 45⟩).length = 12 ∧
      str_to_dt (dt_to_str ⟨2024, 9, 19, 13, 45⟩) = some ⟨2024, 9, 19, 13, 45⟩ :=
  claim8_round_trip ⟨2024, 9, 19, 13, 45⟩ (by decide) (by decide) (by decide)

theorem lookup_cons (k s v : String) (t : List (String × String)) :
    List.lookup k ((s, v) :: t) = if k = s then some v else List.lookup k t := by
  by_cases h : k = s
  · have hb : (k == s) = true := beq_iff_eq.mpr h
    simp [List.lookup, hb, h]
  · have hb : (k == s) = false := beq_eq_false_iff_ne.mpr h
    simp [List.lookup, hb, h]

theorem lookup_dirSet (stem c k : String) (d : Dir) :
    List.lookup k (dirSet stem c d) = if k = stem then some c else List.lookup k d := by
  induction d with
  | nil => rw [show dirSet stem c [] = [(stem, c)] from rfl, lookup_cons]
  | cons p t ih =>
    obtain ⟨s, v⟩ := p
    simp only [dirSet]
    by_cases h1 : stem = s
    · rw [if_pos h1]
      subst h1
      rw [lookup_cons, lookup_cons]
      by_cases h2 : k = stem <;> simp [h2]
    · rw [if_neg h1]
      by_cases hlt : stem < s
      · rw [if_pos hlt, lookup_cons, lookup_cons]
      · rw [if_neg hlt, lookup_cons, ih, lookup_cons]
        by_cases h3 : k = s
        · have h4 : ¬k = stem := fun hEq => h1 (hEq.symm.trans h3)
          have h5 : ¬s = stem := fun hEq => h1 hEq.symm
          simp [h3, h4, h5]
        · simp [h3]

theorem lookup_dirDel (stem k : String) (d : Dir) (hk : k ≠ stem) :
    List.lookup k (dirDel stem d) = List.lookup k d := by
  induction d with
  | nil => rfl
  | cons p t ih =>
    obtain ⟨s, v⟩ := p
    unfold dirDel at ih ⊢
    by_cases h1 : s = stem
    · rw [show List.filter (fun p => decide (p.1 ≠ stem)) ((s, v) :: t)
          = List.filter (fun p => decide (p.1 ≠ stem)) t from by simp [List.filter_cons, h1]]
      rw [ih, lookup_cons, if_neg (fun hEq => hk (hEq.trans h1))]
    · rw [show List.filter (fun p => decide (p.1 ≠ stem)) ((s, v) :: t)
          = (s, v) :: List.filter (fun p => decide (p.1 ≠ stem)) t from by
            simp [List.filter_cons, h1]]
      rw [lookup_cons, lookup_cons, ih]

theorem lookup_dirDel_self (stem : String) (d : Dir) :
    List.lookup stem (dirDel stem d) = none := by
  induction d with
  | nil => rfl
  | cons p t ih =>
    obtain ⟨s, v⟩ := p
    unfold dirDel at ih ⊢
    by_cases h1 : s = stem
    · rw [show List.filter (fun p => decide (p.1 ≠ stem)) ((s, v) :: t)
          = List.filter (fun p => decide (p.1 ≠ stem)) t from by simp [List.filter_cons, h1]]
      exact ih
    · rw [show List.filter (fun p => decide (p.1 ≠ stem)) ((s, v) :: t)
          = (s, v) :: List.filter (fun p => decide (p.1 ≠ stem)) t from by
            simp [List.filter_cons, h1]]
      rw [lookup_cons, if_neg (fun hEq => h1 hEq.symm), ih]

theorem shape_key_suffix (s : String) (hs : isDateKey s = true) (c1 c2 c3 c4 : Char)
    (h1 : c1.isDigit = true) (h2 : c2.isDigit = true) (h3 : c3.isDigit = true)
    (h4 : c4.isDigit = true) :
    isTsShape (s ++ String.mk [' ', c1, c2, ':', c3, c4]) = true := by
  unfold isDateKey at hs
  split at hs
  case h_2 => exact Bool.noConfusion hs
  case h_1 a b c d e f heq =>
    simp only [Bool.and_eq_true] at hs
    obtain ⟨⟨⟨⟨⟨ha, hb⟩, hc⟩, hd⟩, he⟩, hf⟩ := hs
    have hdata : (s ++ String.mk [' ', c1, c2, ':', c3, c4]).data
        = [a, b, c, d, e, f, ' ', c1, c2, ':', c3, c4] := by
      rw [String.data_append, heq]
      rfl
    simp only [isTsShape, hdata]
    simp [ha, hb, hc, hd, he, hf, h1, h2, h3, h4]

theorem dateKey_today (nowT : DateTime) (hv : validT nowT) :
    isDateKey (today_str nowT) = true := by
  obtain ⟨hvy, hvy9, hvm1, hvm2, hvd1, hvd2, hvh, hvmi⟩ := hv
  have hd31 : nowT.day ≤ 31 := le_trans hvd2 (daysInMonth_le_31 _ _)
  have hdata : (today_str nowT).data
      = [dchar (nowT.year % 100 / 10), dchar (nowT.year % 100 % 10), dchar (nowT.month / 10),
        dchar (nowT.month % 10), dchar (nowT.day / 10), dchar (nowT.day % 10)] := rfl
  simp only [isDateKey, hdata]
  simp [dchar_isDigit (show nowT.year % 100 / 10 < 10 from by omega),
    dchar_isDigit (show nowT.year % 100 % 10 < 10 from by omega),
    dchar_isDigit (show nowT.month / 10 < 10 from by omega),
    dchar_isDigit (show nowT.month % 10 < 10 from by omega),
    dchar_isDigit (show nowT.day / 10 < 10 from by omega),
    dchar_isDigit (show nowT.day % 10 < 10 from by omega)]

theorem shape_render (t : DateTime) (hv : validT t) : isTsShape (dt_to_str t) = true := by
  obtain ⟨hvy, hvy9, hvm1, hvm2, hvd1, hvd2, hvh, hvmi⟩ := hv
  have hd31 : t.day ≤ 31 := le_trans hvd2 (daysInMonth_le_31 _ _)
  have hdata : (dt_to_str t).data
      = [dchar (t.year % 100 / 10), dchar (t.year % 100 % 10), dchar (t.month / 10),
        dchar (t.month % 10), dchar (t.day / 10), dchar (t.day % 10), ' ',
        dchar (t.hour / 10), dchar (t.hour % 10), ':',
        dchar (t.minute / 10), dchar (t.minute % 10)] := rfl
  simp only [isTsShape, hdata]
  simp [dchar_isDigit (show t.year % 100 / 10 < 10 from by omega),
    dchar_isDigit (show t.year % 100 % 10 < 10 from by omega),
    dchar_isDigit (show t.month / 10 < 10 from by omega),
    dchar_isDigit (show t.month % 10 < 10 from by omega),
    dchar_isDigit (show t.day / 10 < 10 from by omega),
    dchar_isDigit (show t.day % 10 < 10 from by omega),
    dchar_isDigit (show t.hour / 10 < 10 from by omega),
    dchar_isDigit (show t.hour % 10 < 10 from by omega),
    dchar_isDigit (show t.minute / 10 < 10 from by omega),
    dchar_isDigit (show t.minute % 10 < 10 from by omega)]

theorem clip_append_pair_ge (l : List String) (a b : String) (ta tb : DateTime)
    (hpa : str_to_dt a = some ta) (hpb : str_to_dt b = some tb)
    (hge : 5 ≤ (toMin tb : Int) - (toMin ta : Int)) :
    clip_last_time_delta_if_short (l ++ [a, b]) = some (l ++ [a, b]) := by
  rw [clip_eq (l ++ [a, b]) a b ta tb (drop_last_two l a b) hpa hpb, if_neg (by omega)]

theorem clip_append_pair_lt (l : List String) (a b : String) (ta tb : DateTime)
    (hpa : str_to_dt a = some ta) (hpb : str_to_dt b = some tb)
    (hlt : (toMin tb : Int) - (toMin ta : Int) < 5) :
    clip_last_time_delta_if_short (l ++ [a, b]) = some l := by
  rw [clip_eq (l ++ [a, b]) a b ta tb (drop_last_two l a b) hpa hpb, if_pos hlt]
  have h : (l ++ [a, b]).length - 2 = l.length := by
    simp only [List.length_append, List.length_cons, List.length_nil]
    omega
  rw [h, List.take_left]

theorem clock_out_midnight_step (nowT : DateTime) (name D1 : String) (dir : Dir)
    (e1 : List String) (rep1 : String)
    (hfl : find_latest_clock_in dir = (some D1, e1))
    (he1 : ¬e1 = [])
    (hne : D1 ≠ today_str nowT)
    (hclip : clip_last_time_delta_if_short (e1 ++ [next_midnight_str D1])
      = some (e1 ++ [next_midnight_str D1]))
    (hrep : generate_report nowT (e1 ++ [next_midnight_str D1]) = some rep1) :
    clock_out nowT name dir = clock_out_finish nowT name
      (dirSet D1 (pyJoin "\n" ((e1 ++ [next_midnight_str D1]) ++ [REPORT_DELIM, rep1])) dir)
      [prev_midnight_str nowT] := by
  simp only [clock_out, hfl]
  rw [if_neg he1, if_neg (fun hEq => hne (Option.some_inj.mp hEq))]
  rw [hclip]
  show (match write_data_file nowT (e1 ++ [next_midnight_str D1]) with
    | none => Except.error (PyErr.valueError, dir)
    | some f1 => clock_out_finish nowT name (dirApply D1 f1 dir) [prev_midnight_str nowT])
    = _
  rw [show write_data_file nowT (e1 ++ [next_midnight_str D1])
    = some (some (pyJoin "\n" ((e1 ++ [next_midnight_str D1]) ++ [REPORT_DELIM, rep1]))) from by
      unfold write_data_file
      rw [if_neg (by simp), hrep]
      rfl]
  rfl

theorem clock_out_finish_pair_ge (nowT : DateTime) (name : String) (dir : Dir)
    (a : String) (ta : DateTime) (rep : String)
    (hpa : str_to_dt a = some ta) (hpn : str_to_dt (dt_to_str nowT) = some nowT)
    (hge : 5 ≤ (toMin nowT : Int) - (toMin ta : Int))
    (hrep : generate_report nowT [a, dt_to_str nowT] = some rep) :
    clock_out_finish nowT name dir [a] = .ok
      (dirSet (today_str nowT) (pyJoin "\n" ([a, dt_to_str nowT] ++ [REPORT_DELIM, rep])) dir,
        "## " ++ name ++ "\n" ++ rep) := by
  unfold clock_out_finish
  rw [show [a] ++ [dt_to_str nowT] = [a, dt_to_str nowT] from rfl]
  rw [show clip_last_time_delta_if_short [a, dt_to_str nowT] = some [a, dt_to_str nowT] from by
    simpa using clip_append_pair_ge [] a (dt_to_str nowT) ta nowT hpa hpn hge]
  show (match write_data_file nowT [a, dt_to_str nowT] with
    | none => Except.error (PyErr.valueError, dir)
    | some f =>
      match generate_report nowT [a, dt_to_str nowT] with
      | none => Except.error (PyErr.valueError, dirApply (today_str nowT) f dir)
      | some rep => Except.ok (dirApply (today_str nowT) f dir, "## " ++ name ++ "\n" ++ rep))
    = _
  rw [show write_data_file nowT [a, dt_to_str nowT]
    = some (some (pyJoin "\n" ([a, dt_to_str nowT] ++ [REPORT_DELIM, rep]))) from by
      unfold write_data_file
      rw [if_neg (by simp), hrep]
      rfl]
  show (match generate_report nowT [a, dt_to_str nowT] with
    | none => Except.error (PyErr.valueError,
        dirSet (today_str nowT) (pyJoin "\n" ([a, dt_to_str nowT] ++ [REPORT_DELIM, rep])) dir)
    | some rep2 => Except.ok
        (dirSet (today_str nowT) (pyJoin "\n" ([a, dt_to_str nowT] ++ [REPORT_DELIM, rep])) dir,
          "## " ++ name ++ "\n" ++ rep2))
    = _
  rw [hrep]

theorem clock_out_finish_pair_lt (nowT : DateTime) (name : String) (dir : Dir)
    (a : String) (ta : DateTime)
    (hpa : str_to_dt a = some ta) (hpn : str_to_dt (dt_to_str nowT) = some nowT)
    (hlt : (toMin nowT : Int) - (toMin ta : Int) < 5) :
    clock_out_finish nowT name dir [a] = .ok (dirDel (today_str nowT) dir,
      "## " ++ name ++ "\n" ++ "No entries found.\n\n") := by
  unfold clock_out_finish
  rw [show [a] ++ [dt_to_str nowT] = [a, dt_to_str nowT] from rfl]
  rw [show clip_last_time_delta_if_short [a, dt_to_str nowT] = some [] from by
    simpa using clip_append_pair_lt [] a (dt_to_str nowT) ta nowT hpa hpn hlt]
  show (match write_data_file nowT ([] : List String) with
    | none => Except.error (PyErr.valueError, dir)
    | some f =>
      match generate_report nowT ([] : List String) with
      | none => Except.error (PyErr.valueError, dirApply (today_str nowT) f dir)
      | some rep => Except.ok (dirApply (today_str nowT) f dir, "## " ++ name ++ "\n" ++ rep))
    = _
  rfl

/-- C2: clocking out when the latest clocked-in day `D1` is not today
closes `D1`'s file with the synthetic entry `D1 23:59`, then writes today's
file as the synthetic clock-in `today 00:00` followed by the actual
clock-out time — provided neither synthetic pair collapses (both gaps at
least five minutes) and the regenerated reports succeed.  The conclusions
read the resulting files back through the store. -/
theorem claim2_midnight_split :
    ∀ (nowT : DateTime) (name D1 : String) (dir : Dir) (e1 : List String)
      (tl tm t0 : DateTime) (rep1 rep2 : String),
      find_latest_clock_in dir = (some D1, e1) →
      isDateKey D1 = true →
      D1 ≠ today_str nowT →
      (∀ e ∈ e1, isCanonicalTs e = true) →
      validT nowT →
      str_to_dt (dt_to_str nowT) = some nowT →
      ∀ he1 : e1 ≠ [],
      str_to_dt (e1.getLast he1) = some tl →
      str_to_dt (next_midnight_str D1) = some tm →
      5 ≤ (toMin tm : Int) - (toMin tl : Int) →
      str_to_dt (prev_midnight_str nowT) = some t0 →
      5 ≤ (toMin nowT : Int) - (toMin t0 : Int) →
      generate_report nowT (e1 ++ [next_midnight_str D1]) = some rep1 →
      generate_report nowT [prev_midnight_str nowT, dt_to_str nowT] = some rep2 →
      ∃ dir' : Dir,
        clock_out nowT name dir = .ok (dir', "## " ++ name ++ "\n" ++ rep2) ∧
        read_data_file (dirGet D1 dir') = e1 ++ [next_midnight_str D1] ∧
        read_data_file (dirGet (today_str nowT) dir')
          = [prev_midnight_str nowT, dt_to_str nowT] := by
  intro nowT name D1 dir e1 tl tm t0 rep1 rep2 hfl hkey hne hcan hv hpn he1 hlast hpm hge1
    hp0 hge2 hrep1 hrep2
  have hsplit : e1 ++ [next_midnight_str D1]
      = e1.dropLast ++ [e1.getLast he1, next_midnight_str D1] := by
    conv_lhs => rw [← List.dropLast_append_getLast he1]
    rw [List.append_assoc]
    rfl
  have hclip1 : clip_last_time_delta_if_short (e1 ++ [next_midnight_str D1])
      = some (e1 ++ [next_midnight_str D1]) := by
    rw [hsplit]
    exact clip_append_pair_ge _ _ _ _ _ hlast hpm (by omega)
  have hmidshape : isTsShape (next_midnight_str D1) = true :=
    shape_key_suffix D1 hkey '2' '3' '5' '9' (by decide) (by decide) (by decide) (by decide)
  have hprevshape : isTsShape (prev_midnight_str nowT) = true :=
    shape_key_suffix (today_str nowT) (dateKey_today nowT hv) '0' '0' '0' '0'
      (by decide) (by decide) (by decide) (by decide)
  have hmemb1 : ∀ x ∈ e1 ++ [next_midnight_str D1], LineOk x := by
    intro x hx
    rcases List.mem_append.mp hx with h | h
    · exact canonical_lineOk (hcan x h)
    · rw [List.mem_singleton.mp h]
      exact shape_lineOk hmidshape
  have hmemb2 : ∀ x ∈ [prev_midnight_str nowT, dt_to_str nowT], LineOk x := by
    intro x hx
    rcases List.mem_cons.mp hx with h | h
    · rw [h]
      exact shape_lineOk hprevshape
    · rw [List.mem_singleton.mp h]
      exact shape_lineOk (shape_render nowT hv)
  have hstep := clock_out_midnight_step nowT name D1 dir e1 rep1 hfl he1 hne hclip1 hrep1
  have hfin := clock_out_finish_pair_ge nowT name
    (dirSet D1 (pyJoin "\n" ((e1 ++ [next_midnight_str D1]) ++ [REPORT_DELIM, rep1])) dir)
    (prev_midnight_str nowT) t0 rep2 hp0 hpn hge2 hrep2
  refine ⟨_, hstep.trans hfin, ?_, ?_⟩
  · show read_data_file (List.lookup D1 (dirSet (today_str nowT) _ _)) = _
    rw [lookup_dirSet, if_neg hne, lookup_dirSet, if_pos rfl]
    exact read_of_join_all _ _ hmemb1
  · show read_data_file (List.lookup (today_str nowT) (dirSet (today_str nowT) _ _)) = _
    rw [lookup_dirSet, if_pos rfl]
    exact read_of_join_all _ _ hmemb2

/-- C9: clocking out between 00:00 and 00:04 with the latest clocked-in day
in the past still succeeds: the prior day's file is closed at 23:59, while
today's seeded pair `[today 00:00, now]` collapses to the empty list, so
today's file is deleted (or never created) and the printed report is the
fixed no-entries message. -/
theorem claim9_early_rollover_no_today_file :
    ∀ (nowT : DateTime) (name D1 : String) (dir : Dir) (e1 : List String)
      (tl tm t0 : DateTime) (rep1 : String),
      find_latest_clock_in dir = (some D1, e1) →
      isDateKey D1 = true →
      D1 ≠ today_str nowT →
      (∀ e ∈ e1, isCanonicalTs e = true) →
      validT nowT →
      str_to_dt (dt_to_str nowT) = some nowT →
      ∀ he1 : e1 ≠ [],
      str_to_dt (e1.getLast he1) = some tl →
      str_to_dt (next_midnight_str D1) = some tm →
      5 ≤ (toMin tm : Int) - (toMin tl : Int) →
      str_to_dt (prev_midnight_str nowT) = some t0 →
      (toMin nowT : Int) - (toMin t0 : Int) < 5 →
      generate_report nowT (e1 ++ [next_midnight_str D1]) = some rep1 →
      ∃ dir' : Dir,
        clock_out nowT name dir
          = .ok (dir', "## " ++ name ++ "\n" ++ "No entries found.\n\n") ∧
        dirGet (today_str nowT) dir' = none ∧
        read_data_file (dirGet D1 dir') = e1 ++ [next_midnight_str D1] := by
  intro nowT name D1 dir e1 tl tm t0 rep1 hfl hkey hne hcan hv hpn he1 hlast hpm hge1
    hp0 hlt2 hrep1
  have hsplit : e1 ++ [next_midnight_str D1]
      = e1.dropLast ++ [e1.getLast he1, next_midnight_str D1] := by
    conv_lhs => rw [← List.dropLast_append_getLast he1]
    rw [List.append_assoc]
    rfl
  have hclip1 : clip_last_time_delta_if_short (e1 ++ [next_midnight_str D1])
      = some (e1 ++ [next_midnight_str D1]) := by
    rw [hsplit]
    exact clip_append_pair_ge _ _ _ _ _ hlast hpm (by omega)
  have hmidshape : isTsShape (next_midnight_str D1) = true :=
    shape_key_suffix D1 hkey '2' '3' '5' '9' (by decide) (by decide) (by decide) (by decide)
  have hmemb1 : ∀ x ∈ e1 ++ [next_midnight_str D1], LineOk x := by
    intro x hx
    rcases List.mem_append.mp hx with h | h
    · exact canonical_lineOk (hcan x h)
    · rw [List.mem_singleton.mp h]
      exact shape_lineOk hmidshape
  have hstep := clock_out_midnight_step nowT name D1 dir e1 rep1 hfl he1 hne hclip1 hrep1
  have hfin := clock_out_finish_pair_lt nowT name
    (dirSet D1 (pyJoin "\n" ((e1 ++ [next_midnight_str D1]) ++ [REPORT_DELIM, rep1])) dir)
    (prev_midnight_str nowT) t0 hp0 hpn hlt2
  refine ⟨_, hstep.trans hfin, ?_, ?_⟩
  · exact lookup_dirDel_self _ _
  · show read_data_file (List.lookup D1 (dirDel (today_str nowT) _)) = _
    rw [lookup_dirDel _ _ _ hne, lookup_dirSet, if_pos rfl]
    exact read_of_join_all _ _ hmemb1

theorem claim2_witness :
    ∃ dir' : Dir,
      clock_out ⟨2024, 9, 19, 0, 10⟩ "tc" [("240918", "240918 13:45")]
          = .ok (dir', "## " ++ "tc" ++ "\n"
            ++ "state: clocked OUT as of 240919 00:10.\ninitial clock in: 240919 00:00\ncumulative time: 0:10:00\nvirtual clock out: 240919 00:10\n\n") ∧
      read_data_file (dirGet "240918" dir')
        = ["240918 13:45"] ++ [next_midnight_str "240918"] ∧
      read_data_file (dirGet (today_str ⟨2024, 9, 19, 0, 10⟩) dir')
        = [prev_midnight_str ⟨2024, 9, 19, 0, 10⟩, dt_to_str ⟨2024, 9, 19, 0, 10⟩] :=
  claim2_midnight_split ⟨2024, 9, 19, 0, 10⟩ "tc" "240918" [("240918", "240918 13:45")]
    ["240918 13:45"] ⟨2024, 9, 18, 13, 45⟩ ⟨2024, 9, 18, 23, 59⟩ ⟨2024, 9, 19, 0, 0⟩
    "state: clocked OUT as of 240918 23:59.\ninitial clock in: 240918 13:45\ncumulative time: 10:14:00\nvirtual clock out: 240918 23:59\n\n"
    "state: clocked OUT as of 240919 00:10.\ninitial clock in: 240919 00:00\ncumulative time: 0:10:00\nvirtual clock out: 240919 00:10\n\n"
    (by decide) (by decide) (by decide) (by decide) (by decide) (by decide) (by decide)
    (by decide) (by decide) (by decide) (by decide) (by decide) (by decide) (by decide)

theorem claim9_witness :
    ∃ dir' : Dir,
      clock_out ⟨2024, 9, 19, 0, 3⟩ "tc" [("240918", "240918 13:45")]
          = .ok (dir', "## " ++ "tc" ++ "\n" ++ "No entries found.\n\n") ∧
      dirGet (today_str ⟨2024, 9, 19, 0, 3⟩) dir' = none ∧
      read_data_file (dirGet "240918" dir')
        = ["240918 13:45"] ++ [next_midnight_str "240918"] :=
  claim9_early_rollover_no_today_file ⟨2024, 9, 19, 0, 3⟩ "tc" "240918"
    [("240918", "240918 13:45")] ["240918 13:45"] ⟨2024, 9, 18, 13, 45⟩
    ⟨2024, 9, 18, 23, 59⟩ ⟨2024, 9, 19, 0, 0⟩
    "state: clocked OUT as of 240918 23:59.\ninitial clock in: 240918 13:45\ncumulative time: 10:14:00\nvirtual clock out: 240918 23:59\n\n"
    (by decide) (by decide) (by decide) (by decide) (by decide) (by decide) (by decide)
    (by decide) (by decide) (by decide) (by decide) (by decide) (by decide)

end Timeclock
